import Mathlib

/-!
# Verification of the find-a-barn-mapbox coordinate/tile pipeline

Shallow embedding of the core logic of the repository:

* `degToTileXY` — the Web-Mercator tile-coordinate mapper of `src/server.js`
  (lines 41–51), with JS floating-point numbers idealised as real numbers.
* the `GET /find-buildings` validation and tile-extraction steps of
  `src/server.js` (lines 56–97).
* `parseInput` — the coordinate/address classifier of `src/public/app.js`
  (lines 19–36), with JS strings as Lean strings and parsed floats as
  rationals.
* `boundingBoxOf` — the bounding-box reduction inside `searchBuildings`
  of `src/public/app.js` (lines 140–147).
* a geometry-command decoder modelled from the specification (the binary
  MVT parsing itself lives in the external `@mapbox/vector-tile` package,
  not under `src/`).
-/

open Real

/-! ## Tile Coordinate Mapper (src/server.js, degToTileXY, lines 41–51) -/

/-- A tile address as returned by `degToTileXY` (the `{ xtile, ytile }`
object in `src/server.js`). -/
structure TileXY where
  xtile : ℤ
  ytile : ℤ
deriving DecidableEq

/-- `Math.floor((lon + 180) / 360 * n)` with `n = 2 ** zoom`
(src/server.js line 43). -/
noncomputable def rawXtile (lon : ℝ) (zoom : ℕ) : ℤ :=
  ⌊(lon + 180) / 360 * (2 : ℝ) ^ zoom⌋

/-- `Math.floor((1 - Math.log(Math.tan(lat * Math.PI / 180) +
1 / Math.cos(lat * Math.PI / 180)) / Math.PI) / 2 * n)`
(src/server.js line 44). -/
noncomputable def rawYtile (lat : ℝ) (zoom : ℕ) : ℤ :=
  ⌊(1 - Real.log (Real.tan (lat * π / 180) + 1 / Real.cos (lat * π / 180)) / π) / 2
      * (2 : ℝ) ^ zoom⌋

/-- `degToTileXY` from `src/server.js` lines 41–51: the raw Web-Mercator
tile indices, clamped on the low end only (`Math.max(0, ...)`, lines 47–48).
There is no clamp to `n - 1` on the high end. -/
noncomputable def degToTileXY (lat lon : ℝ) (zoom : ℕ) : TileXY :=
  { xtile := max 0 (rawXtile lon zoom), ytile := max 0 (rawYtile lat zoom) }

/-- Modelled from the spec: the §4.1 column formula
`col = floor((lon + 180) / 360 * n)` with `n = 2^zoom`. -/
noncomputable def specWebMercatorCol (lon : ℝ) (zoom : ℕ) : ℤ :=
  ⌊(lon + 180) / 360 * (2 : ℝ) ^ zoom⌋

/-- Modelled from the spec: the §4.1 row formula
`row = floor((1 - ln(tan(lat·π/180) + 1/cos(lat·π/180)) / π) / 2 * n)`. -/
noncomputable def specWebMercatorRow (lat : ℝ) (zoom : ℕ) : ℤ :=
  ⌊(1 - Real.log (Real.tan (lat * π / 180) + 1 / Real.cos (lat * π / 180)) / π) / 2
      * (2 : ℝ) ^ zoom⌋

/-- **C7.** For every finite `(lat, lon, zoom)` the tile-coordinate mapper
computes its result by the standard Web-Mercator tiling formulas of §4.1 —
column `floor((lon + 180) / 360 * n)` and row
`floor((1 - ln(tan(lat·π/180) + 1/cos(lat·π/180)) / π) / 2 * n)` with
`n = 2^zoom` — before edge clamping (the code then clamps the low end). -/
theorem degToTileXY_follows_spec_formulas (lat lon : ℝ) (zoom : ℕ) :
    degToTileXY lat lon zoom =
      { xtile := max 0 (specWebMercatorCol lon zoom),
        ytile := max 0 (specWebMercatorRow lat zoom) } :=
  rfl

/-- **C1.** The claim states that column and row are clamped into
`[0, n - 1]`. The code only applies the low clamp: at `lon = 180`,
`zoom = 1` the column evaluates to `2 = 2^zoom = n`, which exceeds
`n - 1 = 1` — the high clamp mandated by the spec is missing
(the spec itself flags this as a latent bug of the implementation). -/
theorem degToTileXY_lon180_exceeds_grid :
    (degToTileXY 0 180 1).xtile = 2 ∧
    ¬ (degToTileXY 0 180 1).xtile ≤ 2 ^ 1 - 1 := by
  have hx : rawXtile 180 1 = 2 := by
    unfold rawXtile
    have h2 : ((180 : ℝ) + 180) / 360 * (2 : ℝ) ^ (1 : ℕ) = ((2 : ℤ) : ℝ) := by
      norm_num
    rw [h2, Int.floor_intCast]
  have hres : (degToTileXY 0 180 1).xtile = 2 := by
    show max 0 (rawXtile 180 1) = 2
    rw [hx]; rfl
  exact ⟨hres, by rw [hres]; decide⟩

/-! ## Monotonicity of the mapper (claim C6) -/

/-- On `(-π/2, π/2)` the Mercator argument `tan θ + 1/cos θ` equals
`(1 + sin θ) / cos θ`. -/
lemma tan_add_inv_cos_eq (θ : ℝ) (h1 : -(π / 2) < θ) (h2 : θ < π / 2) :
    Real.tan θ + 1 / Real.cos θ = (1 + Real.sin θ) / Real.cos θ := by
  have hc : 0 < Real.cos θ := Real.cos_pos_of_mem_Ioo ⟨h1, h2⟩
  rw [Real.tan_eq_sin_div_cos]
  field_simp
  ring

/-- On `(-π/2, π/2)` we have `-1 < sin θ`, hence `0 < 1 + sin θ`. -/
lemma one_add_sin_pos (θ : ℝ) (h1 : -(π / 2) < θ) (h2 : θ < π / 2) :
    0 < 1 + Real.sin θ := by
  have hm : Real.sin (-(π / 2)) < Real.sin θ := by
    have hpi := Real.pi_pos
    exact Real.strictMonoOn_sin
      ⟨le_rfl, by linarith⟩ ⟨h1.le, h2.le⟩ h1
  rw [Real.sin_neg, Real.sin_pi_div_two] at hm
  linarith

/-- The Mercator argument `(1 + sin θ)/cos θ` is monotone on `(-π/2, π/2)`. -/
lemma mercator_arg_mono (θ₁ θ₂ : ℝ) (h₁ : -(π / 2) < θ₁) (h₁' : θ₁ < π / 2)
    (h₂ : -(π / 2) < θ₂) (h₂' : θ₂ < π / 2) (h : θ₁ ≤ θ₂) :
    (1 + Real.sin θ₁) / Real.cos θ₁ ≤ (1 + Real.sin θ₂) / Real.cos θ₂ := by
  have hc₁ : 0 < Real.cos θ₁ := Real.cos_pos_of_mem_Ioo ⟨h₁, h₁'⟩
  have hc₂ : 0 < Real.cos θ₂ := Real.cos_pos_of_mem_Ioo ⟨h₂, h₂'⟩
  rw [div_le_div_iff₀ hc₁ hc₂]
  have hpi := Real.pi_pos
  set d : ℝ := (θ₂ - θ₁) / 2 with hd
  set m : ℝ := (θ₁ + θ₂) / 2 with hm
  have hd0 : 0 ≤ d := by rw [hd]; linarith
  have hdpi : d ≤ π := by rw [hd]; linarith
  have hsind : 0 ≤ Real.sin d := Real.sin_nonneg_of_nonneg_of_le_pi hd0 hdpi
  have hkey : 0 ≤ Real.sin m + Real.cos d := by
    have hcc : Real.cos (m + π / 2) ≤ Real.cos d := by
      apply Real.cos_le_cos_of_nonneg_of_le_pi hd0
      · rw [hm]; linarith
      · rw [hd, hm]; linarith
    rw [Real.cos_add_pi_div_two] at hcc
    linarith
  have e1 : Real.cos θ₁ - Real.cos θ₂ = 2 * Real.sin m * Real.sin d := by
    rw [Real.cos_sub_cos]
    have hmd : (θ₁ - θ₂) / 2 = -d := by rw [hd]; ring
    rw [hmd, Real.sin_neg, ← hm]
    ring
  have e2 : Real.sin θ₂ * Real.cos θ₁ - Real.cos θ₂ * Real.sin θ₁
      = 2 * Real.sin d * Real.cos d := by
    have h2d : θ₂ - θ₁ = 2 * d := by rw [hd]; ring
    have hs := Real.sin_sub θ₂ θ₁
    rw [h2d, Real.sin_two_mul] at hs
    linarith
  have hprod : 0 ≤ Real.sin d * (Real.sin m + Real.cos d) := mul_nonneg hsind hkey
  nlinarith [hprod, e1, e2]

/-- The latitude angle `lat * π / 180` lies in `(-π/2, π/2)` whenever
`lat ∈ (-85, 85)` (indeed whenever `lat ∈ (-90, 90)`). -/
lemma lat_angle_mem (lat : ℝ) (ha : -85 < lat) (hb : lat < 85) :
    -(π / 2) < lat * π / 180 ∧ lat * π / 180 < π / 2 := by
  have hpi := Real.pi_pos
  constructor
  · nlinarith [mul_pos (by linarith : (0 : ℝ) < lat + 90) hpi]
  · nlinarith [mul_pos (by linarith : (0 : ℝ) < 90 - lat) hpi]

/-- The logarithm of the Mercator argument is monotone in latitude on
`(-85, 85)`. -/
lemma mercator_log_mono (la₁ la₂ : ℝ) (h₁ : -85 < la₁) (h₁' : la₁ < 85)
    (h₂ : -85 < la₂) (h₂' : la₂ < 85) (h : la₁ ≤ la₂) :
    Real.log (Real.tan (la₁ * π / 180) + 1 / Real.cos (la₁ * π / 180)) ≤
      Real.log (Real.tan (la₂ * π / 180) + 1 / Real.cos (la₂ * π / 180)) := by
  obtain ⟨hA₁, hB₁⟩ := lat_angle_mem la₁ h₁ h₁'
  obtain ⟨hA₂, hB₂⟩ := lat_angle_mem la₂ h₂ h₂'
  rw [tan_add_inv_cos_eq _ hA₁ hB₁, tan_add_inv_cos_eq _ hA₂ hB₂]
  have hpos : 0 < (1 + Real.sin (la₁ * π / 180)) / Real.cos (la₁ * π / 180) :=
    div_pos (one_add_sin_pos _ hA₁ hB₁) (Real.cos_pos_of_mem_Ioo ⟨hA₁, hB₁⟩)
  have hθ : la₁ * π / 180 ≤ la₂ * π / 180 := by
    have hpi := Real.pi_pos
    nlinarith [mul_nonneg (by linarith : (0 : ℝ) ≤ la₂ - la₁) hpi.le]
  exact Real.log_le_log hpos (mercator_arg_mono _ _ hA₁ hB₁ hA₂ hB₂ hθ)

/-- **C6.** At a fixed zoom the mapper is monotone in each axis
independently: a larger longitude never yields a smaller column, and, for
latitudes in the open interval `(-85, 85)`, a larger latitude never yields
a larger row. -/
theorem degToTileXY_monotone (zoom : ℕ) (lat lon lat1 lat2 lon1 lon2 : ℝ)
    (hlat1 : -85 < lat1) (hlat1' : lat1 < 85)
    (hlat2 : -85 < lat2) (hlat2' : lat2 < 85) :
    (lon1 ≤ lon2 →
      (degToTileXY lat lon1 zoom).xtile ≤ (degToTileXY lat lon2 zoom).xtile) ∧
    (lat1 ≤ lat2 →
      (degToTileXY lat2 lon zoom).ytile ≤ (degToTileXY lat1 lon zoom).ytile) := by
  constructor
  · intro hlon
    show max 0 (rawXtile lon1 zoom) ≤ max 0 (rawXtile lon2 zoom)
    apply max_le_max le_rfl
    apply Int.floor_le_floor
    have hn : (0 : ℝ) ≤ (2 : ℝ) ^ zoom := by positivity
    apply mul_le_mul_of_nonneg_right _ hn
    linarith
  · intro hlat
    show max 0 (rawYtile lat2 zoom) ≤ max 0 (rawYtile lat1 zoom)
    apply max_le_max le_rfl
    apply Int.floor_le_floor
    have hn : (0 : ℝ) ≤ (2 : ℝ) ^ zoom := by positivity
    apply mul_le_mul_of_nonneg_right _ hn
    have hL := mercator_log_mono lat1 lat2 hlat1 hlat1' hlat2 hlat2' hlat
    have hpi := Real.pi_pos
    have hdiv : Real.log (Real.tan (lat1 * π / 180) + 1 / Real.cos (lat1 * π / 180)) / π ≤
        Real.log (Real.tan (lat2 * π / 180) + 1 / Real.cos (lat2 * π / 180)) / π :=
      div_le_div_of_nonneg_right hL hpi.le
    linarith

/-- Witness for C6 at concrete inputs: latitudes `0` and `45`,
longitudes `0` and `1`, zoom `1`. -/
theorem degToTileXY_monotone_witness :
    ((-85 : ℝ) < 0 ∧ (0 : ℝ) < 85 ∧ (-85 : ℝ) < 45 ∧ (45 : ℝ) < 85 ∧
      (0 : ℝ) ≤ 1 ∧ (0 : ℝ) ≤ 45) ∧
    (degToTileXY 0 0 1).xtile ≤ (degToTileXY 0 1 1).xtile ∧
    (degToTileXY 45 0 1).ytile ≤ (degToTileXY 0 0 1).ytile := by
  refine ⟨by norm_num, ?_, ?_⟩
  · exact (degToTileXY_monotone 1 0 0 0 45 0 1 (by norm_num) (by norm_num)
      (by norm_num) (by norm_num)).1 (by norm_num)
  · exact (degToTileXY_monotone 1 0 0 0 45 0 1 (by norm_num) (by norm_num)
      (by norm_num) (by norm_num)).2 (by norm_num)

/-! ## String helpers shared by the frontend parser and the server endpoint

JS strings are Lean strings; the scanners below work on `List Char`. -/

/-- Greedy run of decimal digits (the `\d+` / `\d*` pieces of the regexes,
and the digit runs consumed by `parseFloat`). -/
def takeDigits : List Char → List Char × List Char
  | [] => ([], [])
  | c :: cs =>
    if c.isDigit then
      let (ds, rest) := takeDigits cs
      (c :: ds, rest)
    else ([], c :: cs)

/-- Greedy run of whitespace (the `\s*` piece of the coordinate regex, and
the leading whitespace skipped by `parseFloat`). -/
def dropSpaces : List Char → List Char
  | [] => []
  | c :: cs => if c.isWhitespace then dropSpaces cs else c :: cs

/-- Numeric value of a digit run. -/
def digitsVal (ds : List Char) : ℕ :=
  ds.foldl (fun a c => 10 * a + (c.toNat - '0'.toNat)) 0

/-- Value of a decimal literal `[-]intPart[.fracPart]`, as the exact
rational that idealises the JS float. -/
def decimalVal (neg : Bool) (intPart fracPart : List Char) : ℚ :=
  let mag : ℚ := (digitsVal intPart : ℚ) + (digitsVal fracPart : ℚ) / 10 ^ fracPart.length
  if neg then -mag else mag

/-- Optional sign, as consumed by `parseFloat` (`+` or `-`); returns
whether the value is negated and the remaining characters. -/
def takeSign : List Char → Bool × List Char
  | '-' :: t => (true, t)
  | '+' :: t => (false, t)
  | l => (false, l)

/-- Optional exponent suffix `e`/`E` `[+-]` digits, multiplying the value
by a power of ten; a malformed exponent is ignored, exactly as JS
`parseFloat` ignores trailing garbage. -/
def applyExponent (q : ℚ) : List Char → ℚ
  | c :: t =>
    if c = 'e' ∨ c = 'E' then
      let (eneg, t1) := takeSign t
      let (eds, _) := takeDigits t1
      if eds = [] then q
      else q * (10 : ℚ) ^ (if eneg then -(digitsVal eds : ℤ) else (digitsVal eds : ℤ))
    else q
  | [] => q

/-- JS `parseFloat`: skips leading whitespace, reads an optional sign, a
decimal literal (`digits`, `digits.digits`, `digits.` or `.digits`) and an
optional exponent, ignoring trailing garbage; yields `none` (NaN) when no
digit is found.  (The `Infinity` literal is not modelled; no claim
involves it.) -/
def jsParseFloat (s : String) : Option ℚ :=
  let l := dropSpaces s.data
  let (neg, l1) := takeSign l
  let (ds, l2) := takeDigits l1
  match l2 with
  | '.' :: t =>
    let (fs, l3) := takeDigits t
    if ds = [] ∧ fs = [] then none
    else some (applyExponent (decimalVal neg ds fs) l3)
  | _ =>
    if ds = [] then none
    else some (applyExponent (decimalVal neg ds []) l2)

/-! ## GET /find-buildings validation and mapper call
(src/server.js lines 56–68) -/

/-- NaN-aware wrapper around the mapper: `parseFloat` yields NaN (`none`)
on non-numeric input, and the arithmetic of `degToTileXY`
(`Math.floor`, `Math.max`) propagates NaN, so the resulting tile address
is NaN (`none`) rather than an error. -/
noncomputable def jsDegToTileXY : Option ℚ → Option ℚ → ℕ → Option TileXY
  | some la, some lo, zoom => some (degToTileXY (la : ℝ) (lo : ℝ) zoom)
  | _, _, _ => none

/-- Outcome of the validation/mapper prefix of `GET /find-buildings`:
either the early `400` response, or the upstream tile fetch for the
computed (possibly NaN) tile address.  No other observable action happens
before the fetch. -/
inductive FindBuildingsStep where
  | badRequest (error : String)
  | fetchTile (addr : Option TileXY)

/-- `GET /find-buildings` up to the upstream fetch (src/server.js
lines 56–68): a missing (`none`) or empty query parameter is JS-falsy and
is rejected with `400` before any tile computation; otherwise the handler
computes `degToTileXY(parseFloat(lat), parseFloat(lon), 19)` and fetches
that tile. -/
noncomputable def findBuildingsStart : Option String → Option String → FindBuildingsStep
  | some la, some lo =>
    if la = "" ∨ lo = "" then .badRequest "Missing lat/lon parameters"
    else .fetchTile (jsDegToTileXY (jsParseFloat la) (jsParseFloat lo) 19)
  | _, _ => .badRequest "Missing lat/lon parameters"

/-- **C9.** A request in which `lat` or `lon` is absent or empty is
answered with the `400` error body, and the handler performs no tile
computation and no upstream fetch (the `badRequest` outcome is returned
before either). -/
theorem findBuildings_missing_params (lat lon : Option String)
    (h : lat = none ∨ lat = some "" ∨ lon = none ∨ lon = some "") :
    findBuildingsStart lat lon = .badRequest "Missing lat/lon parameters" := by
  rcases h with h | h | h | h <;> subst h
  · rfl
  · cases lon <;> simp [findBuildingsStart]
  · cases lat <;> rfl
  · cases lat with
    | none => rfl
    | some la => simp [findBuildingsStart]

/-- Witness for C9: `lat` absent, and separately `lon` empty. -/
theorem findBuildings_missing_params_witness :
    ((none : Option String) = none ∨ (none : Option String) = some "" ∨
      (some "37.77" : Option String) = none ∨ (some "37.77" : Option String) = some "") ∧
    findBuildingsStart none (some "37.77") = .badRequest "Missing lat/lon parameters" ∧
    findBuildingsStart (some "37.77") (some "") = .badRequest "Missing lat/lon parameters" :=
  ⟨Or.inl rfl,
    findBuildings_missing_params none (some "37.77") (Or.inl rfl),
    findBuildings_missing_params (some "37.77") (some "")
      (Or.inr (Or.inr (Or.inr rfl)))⟩

/-! ## Non-numeric input does not fail fast (claim C3) -/

/-- **C3 counterexample.** The claim says a non-numeric latitude fails
fast with an `InvalidCoordinate` error.  In the code the only validation
is the JS-falsiness check on the raw strings: `lat = "abc"` is truthy, so
the handler proceeds — `parseFloat("abc")` is NaN and the mapper
propagates NaN into the tile address (`none`), which is then used in the
upstream fetch URL.  No error of any kind is raised before the fetch. -/
theorem findBuildings_nonNumeric_no_error :
    jsParseFloat "abc" = none ∧
    findBuildingsStart (some "abc") (some "1") = .fetchTile none :=
  ⟨rfl, rfl⟩

/-- **C3 amended.** The pipeline performs no numeric validation: any
non-empty `lat`/`lon` strings pass the endpoint's only check.  When both
parse to finite numbers the handler deterministically fetches the tile
computed by `degToTileXY` at zoom 19 (a pure total function); when either
is non-numeric, `parseFloat` yields NaN and the NaN tile address is
fetched — no `InvalidCoordinate` error exists on this path. -/
theorem findBuildings_numeric_behavior (la lo : String)
    (hla : ¬ la = "") (hlo : ¬ lo = "") :
    (∀ qa qb : ℚ, jsParseFloat la = some qa → jsParseFloat lo = some qb →
      findBuildingsStart (some la) (some lo) =
        .fetchTile (some (degToTileXY (qa : ℝ) (qb : ℝ) 19))) ∧
    (jsParseFloat la = none ∨ jsParseFloat lo = none →
      findBuildingsStart (some la) (some lo) = .fetchTile none) := by
  have hstep : findBuildingsStart (some la) (some lo) =
      .fetchTile (jsDegToTileXY (jsParseFloat la) (jsParseFloat lo) 19) := by
    unfold findBuildingsStart
    exact if_neg (by tauto)
  constructor
  · intro qa qb hqa hqb
    rw [hstep, hqa, hqb]
    rfl
  · intro h
    rw [hstep]
    rcases h with h | h
    · rw [h]; rfl
    · rw [h]
      cases jsParseFloat la <;> rfl

/-- Witness for the amended C3 at `lat = "1.5"`, `lon = "2"`. -/
theorem findBuildings_numeric_behavior_witness :
    (¬ ("1.5" : String) = "" ∧ ¬ ("2" : String) = "" ∧
      jsParseFloat "1.5" = some (3 / 2) ∧ jsParseFloat "2" = some 2) ∧
    findBuildingsStart (some "1.5") (some "2") =
      .fetchTile (some (degToTileXY ((3 / 2 : ℚ) : ℝ) ((2 : ℚ) : ℝ) 19)) := by
  have hd1 : digitsVal (['1']) = 1 := by decide
  have hd5 : digitsVal (['5']) = 5 := by decide
  have hd2 : digitsVal (['2']) = 2 := by decide
  have hv15 : decimalVal false (['1']) (['5']) = 3 / 2 := by
    simp [decimalVal, hd1, hd5]
    norm_num
  have hv2 : decimalVal false (['2']) ([]) = 2 := by
    simp [decimalVal, hd2, digitsVal]
  have h15 : jsParseFloat "1.5" = some (3 / 2) := by
    have h0 : jsParseFloat "1.5" = some (decimalVal false (['1']) (['5'])) := rfl
    rw [h0, hv15]
  have h2 : jsParseFloat "2" = some 2 := by
    have h0 : jsParseFloat "2" = some (decimalVal false (['2']) ([])) := rfl
    rw [h0, hv2]
  refine ⟨⟨by decide, by decide, h15, h2⟩, ?_⟩
  exact (findBuildings_numeric_behavior "1.5" "2" (by decide) (by decide)).1
    (3 / 2) 2 h15 h2

/-! ## parseInput (src/public/app.js lines 19–36, claim C8) -/

/-- JS `String.prototype.trim` on the input (app.js line 20): drop
leading and trailing whitespace.  Implemented over the character list so
that concrete inputs evaluate. -/
def jsTrim (s : String) : String :=
  ⟨(dropSpaces (dropSpaces s.data).reverse).reverse⟩

/-- One coordinate token of the regex, `-?\d+\.?\d*`: an optional minus
sign, at least one digit, an optional dot, and further digits; returns the
token's components and the unconsumed characters.  (The token alphabet
contains neither `,` nor whitespace, so the greedy scan is equivalent to
the backtracking regex.) -/
def matchNumToken (l : List Char) : Option ((Bool × List Char × List Char) × List Char) :=
  let (neg, l1) := match l with
    | '-' :: t => (true, t)
    | _ => (false, l)
  let (ds, l2) := takeDigits l1
  if ds = [] then none
  else
    match l2 with
    | '.' :: t =>
      let (fs, l3) := takeDigits t
      some ((neg, ds, fs), l3)
    | _ => some ((neg, ds, []), l2)

/-- The anchored coordinate-pair regex of app.js line 21,
`^(-?\d+\.?\d*),\s*(-?\d+\.?\d*)$`, applied to the trimmed input:
two numeric tokens separated by a comma and optional whitespace,
consuming the whole string. -/
def coordMatch (l : List Char) : Option ((Bool × List Char × List Char) × (Bool × List Char × List Char)) :=
  match matchNumToken l with
  | none => none
  | some (tok1, r1) =>
    match r1 with
    | ',' :: r2 =>
      match matchNumToken (dropSpaces r2) with
      | none => none
      | some (tok2, r4) => if r4 = [] then some (tok1, tok2) else none
    | _ => none

/-- Numeric value of a matched token: `parseFloat` applied to a string of
shape `-?\d+\.?\d*` yields exactly its decimal value. -/
def tokenVal (tok : Bool × List Char × List Char) : ℚ :=
  decimalVal tok.1 tok.2.1 tok.2.2

/-- The range check of app.js line 29. -/
def coordInRange (lat lng : ℚ) : Prop :=
  -90 ≤ lat ∧ lat ≤ 90 ∧ -180 ≤ lng ∧ lng ≤ 180

instance (lat lng : ℚ) : Decidable (coordInRange lat lng) := by
  unfold coordInRange; infer_instance

/-- Result of `parseInput`: either `{ type: 'coordinates', lat, lng }` or
`{ type: 'address', query }`. -/
inductive ParsedInput where
  | coordinates (lat lng : ℚ)
  | address (query : String)
deriving DecidableEq

/-- `parseInput` from `src/public/app.js` lines 19–36: trim, try the
coordinate-pair regex, parse both numbers (`lat = parseFloat(match[1])`,
`lng = parseFloat(match[2])`) and range-check them; any failure falls
back to the address variant carrying the trimmed input. -/
def parseInput (input : String) : ParsedInput :=
  match coordMatch (jsTrim input).data with
  | some (tok1, tok2) =>
    if coordInRange (tokenVal tok1) (tokenVal tok2) then
      .coordinates (tokenVal tok1) (tokenVal tok2)
    else .address (jsTrim input)
  | none => .address (jsTrim input)

lemma parseInput_eq_of_match (s : String) (tok1 tok2 : Bool × List Char × List Char)
    (hm : coordMatch (jsTrim s).data = some (tok1, tok2)) :
    parseInput s =
      if coordInRange (tokenVal tok1) (tokenVal tok2) then
        .coordinates (tokenVal tok1) (tokenVal tok2)
      else .address (jsTrim s) := by
  unfold parseInput
  rw [hm]

lemma parseInput_eq_of_no_match (s : String)
    (hm : coordMatch (jsTrim s).data = none) :
    parseInput s = .address (jsTrim s) := by
  unfold parseInput
  rw [hm]

/-- **C8.** `parseInput` is total over arbitrary strings (it is a Lean
function, so it never throws): on a trimmed input matching the coordinate
regex with latitude in `[-90, 90]` and longitude in `[-180, 180]` it
returns the coordinates variant with the parsed numbers, and on every
other input — including a matching pair whose values are out of range —
it returns the address variant carrying the trimmed input. -/
theorem parseInput_characterization (s : String) :
    (parseInput s = .address (jsTrim s) ∨
      ∃ la ln, parseInput s = .coordinates la ln) ∧
    (∀ tok1 tok2, coordMatch (jsTrim s).data = some (tok1, tok2) →
      (coordInRange (tokenVal tok1) (tokenVal tok2) →
        parseInput s = .coordinates (tokenVal tok1) (tokenVal tok2)) ∧
      (¬ coordInRange (tokenVal tok1) (tokenVal tok2) →
        parseInput s = .address (jsTrim s))) ∧
    (coordMatch (jsTrim s).data = none → parseInput s = .address (jsTrim s)) := by
  refine ⟨?_, ?_, ?_⟩
  · rcases hm : coordMatch (jsTrim s).data with _ | ⟨tok1, tok2⟩
    · exact Or.inl (parseInput_eq_of_no_match s hm)
    · by_cases hr : coordInRange (tokenVal tok1) (tokenVal tok2)
      · exact Or.inr ⟨_, _, by rw [parseInput_eq_of_match s tok1 tok2 hm, if_pos hr]⟩
      · exact Or.inl (by rw [parseInput_eq_of_match s tok1 tok2 hm, if_neg hr])
  · intro tok1 tok2 hm
    exact ⟨fun hr => by rw [parseInput_eq_of_match s tok1 tok2 hm, if_pos hr],
      fun hr => by rw [parseInput_eq_of_match s tok1 tok2 hm, if_neg hr]⟩
  · exact parseInput_eq_of_no_match s

/-- Witness for C8 at the concrete input `"10.5, -20"`, which matches the
coordinate regex and is in range: `parseInput` returns the coordinates
variant `(10.5, -20)`. -/
theorem parseInput_characterization_witness :
    coordMatch (jsTrim "10.5, -20").data =
      some ((false, ['1', '0'], ['5']), (true, ['2', '0'], [])) ∧
    coordInRange (tokenVal (false, ['1', '0'], ['5'])) (tokenVal (true, ['2', '0'], [])) ∧
    parseInput "10.5, -20" =
      .coordinates (tokenVal (false, ['1', '0'], ['5'])) (tokenVal (true, ['2', '0'], [])) := by
  have hm : coordMatch (jsTrim "10.5, -20").data =
      some ((false, ['1', '0'], ['5']), (true, ['2', '0'], [])) := by decide
  have hd10 : digitsVal (['1', '0']) = 10 := by decide
  have hd5 : digitsVal (['5']) = 5 := by decide
  have hd20 : digitsVal (['2', '0']) = 20 := by decide
  have hv1 : tokenVal (false, ['1', '0'], ['5']) = 21 / 2 := by
    simp [tokenVal, decimalVal, hd10, hd5]
    norm_num
  have hv2 : tokenVal (true, ['2', '0'], []) = -20 := by
    simp [tokenVal, decimalVal, hd20, digitsVal]
  have hr : coordInRange (tokenVal (false, ['1', '0'], ['5'])) (tokenVal (true, ['2', '0'], [])) := by
    rw [hv1, hv2]
    unfold coordInRange
    norm_num
  exact ⟨hm, hr, ((parseInput_characterization "10.5, -20").2.1 _ _ hm).1 hr⟩

/-! ## Bounding box of searchBuildings (src/public/app.js lines 140–147,
claim C2)

GeoJSON coordinates are `[lng, lat]` pairs, idealised as `ℚ × ℚ`. -/

/-- The GeoJSON geometry variants a decoded feature can carry. -/
inductive GeoJSONGeometry where
  | point (c : ℚ × ℚ)
  | lineString (cs : List (ℚ × ℚ))
  | polygon (rings : List (List (ℚ × ℚ)))
  | multiPolygon (polys : List (List (List (ℚ × ℚ))))
deriving DecidableEq

/-- A feature as consumed by the bounding-box reduction (only the
geometry is read; `properties` is never touched by this code). -/
structure GeoFeature where
  geometry : GeoJSONGeometry
deriving DecidableEq

/-- `mapboxgl.LngLatBounds`: `none` is the fresh/empty bounds
(`bounds.isEmpty()` is true exactly here), `some (sw, ne)` holds the
south-west (componentwise min) and north-east (componentwise max)
corners. -/
def LngLatBounds : Type := Option ((ℚ × ℚ) × (ℚ × ℚ))

/-- `LngLatBounds.extend(coord)`: the first point initialises both
corners; later points take the componentwise min/max. -/
def lngLatExtend (b : LngLatBounds) (p : ℚ × ℚ) : LngLatBounds :=
  match b with
  | none => some (p, p)
  | some ((w, s), (e, n)) =>
    some ((min w p.1, min s p.2), (max e p.1, max n p.2))

/-- One step of the `reduce` at app.js lines 140–145: only features whose
geometry type is exactly `'Polygon'` contribute, and only their first ring
`coordinates[0]`; every other geometry type leaves the accumulator
untouched.  (A `'Polygon'` with an empty `coordinates` array would make
the JS crash on `undefined.forEach`; the theorems below exclude that case
via the `ringedPolygons` hypothesis, and the step is a no-op there.) -/
def featureStep (b : LngLatBounds) (f : GeoFeature) : LngLatBounds :=
  match f.geometry with
  | .polygon (r :: _) => r.foldl lngLatExtend b
  | _ => b

/-- The bounding-box reduction of `searchBuildings`
(`data.features.reduce(..., new mapboxgl.LngLatBounds())`). -/
def boundingBoxOf (features : List GeoFeature) : LngLatBounds :=
  features.foldl featureStep none

/-- All coordinate points of a geometry — the accumulation the claim
describes (every ring of every Polygon/MultiPolygon, plus Point and
LineString points). -/
def geometryPoints : GeoJSONGeometry → List (ℚ × ℚ)
  | .point c => [c]
  | .lineString cs => cs
  | .polygon rings => rings.flatten
  | .multiPolygon polys => (polys.map List.flatten).flatten

/-- The points the code actually accumulates for a feature: the first
ring of a `Polygon`, nothing for any other geometry. -/
def outerRingPoints (f : GeoFeature) : List (ℚ × ℚ) :=
  match f.geometry with
  | .polygon (r :: _) => r
  | _ => []

/-- The points the code actually accumulates for a whole collection. -/
def contributingPoints (fs : List GeoFeature) : List (ℚ × ℚ) :=
  (fs.map outerRingPoints).flatten

/-- No `Polygon` feature with an empty `coordinates` array (on such input
the JS code would throw instead of producing bounds). -/
def ringedPolygons (fs : List GeoFeature) : Prop :=
  ∀ f ∈ fs, ∀ rings, f.geometry = .polygon rings → rings ≠ []

/-- **C2 counterexample.** A collection holding a single `Point` feature
contributes one coordinate point, so the claim requires a bounding box
with `min == max`; the code's reduction only looks at `Polygon`
geometries and returns the empty sentinel. -/
theorem boundingBoxOf_point_ignored :
    geometryPoints (GeoJSONGeometry.point (1, 2)) = [(1, 2)] ∧
    boundingBoxOf [{ geometry := .point (1, 2) }] = none :=
  ⟨rfl, rfl⟩

lemma foldl_featureStep_eq (fs : List GeoFeature) :
    ∀ b : LngLatBounds, fs.foldl featureStep b = (contributingPoints fs).foldl lngLatExtend b := by
  induction fs with
  | nil => intro b; rfl
  | cons f t ih =>
    intro b
    have hstep : featureStep b f = (outerRingPoints f).foldl lngLatExtend b := by
      unfold featureStep outerRingPoints
      rcases f.geometry with _ | _ | rings | _
      · rfl
      · rfl
      · rcases rings with _ | ⟨r, rs⟩ <;> rfl
      · rfl
    show List.foldl featureStep (featureStep b f) t = _
    rw [ih (featureStep b f), hstep, contributingPoints]
    show _ = List.foldl lngLatExtend b (outerRingPoints f ++ (t.map outerRingPoints).flatten)
    rw [List.foldl_append]

lemma lngLatExtend_ne_none (b : LngLatBounds) (p : ℚ × ℚ) :
    lngLatExtend b p ≠ none := by
  unfold lngLatExtend
  rcases b with _ | ⟨⟨⟨w, s⟩, ⟨e, n⟩⟩⟩ <;> simp

lemma foldl_lngLatExtend_some (l : List (ℚ × ℚ)) :
    ∀ q : (ℚ × ℚ) × (ℚ × ℚ), ∃ q2, l.foldl lngLatExtend (some q) = some q2 := by
  induction l with
  | nil => intro q; exact ⟨q, rfl⟩
  | cons p t ih =>
    intro q
    show ∃ q2, t.foldl lngLatExtend (lngLatExtend (some q) p) = some q2
    rcases hq : lngLatExtend (some q) p with _ | q1
    · exact absurd hq (lngLatExtend_ne_none _ p)
    · exact ih q1

/-- **C2 amended.** The reduction accumulates exactly the first
(outer) ring of each `Polygon` feature — `MultiPolygon`, `Point` and
`LineString` geometries contribute nothing — so (for collections on which
the JS code does not crash, i.e. no ring-less `Polygon`): the result is
the fold of `extend` over those outer-ring points, it is the empty
sentinel iff no `Polygon` feature has a nonempty outer ring, and when the
contributing points are a single point `p` the result has `min == max ==
p`. -/
theorem boundingBoxOf_outer_rings (fs : List GeoFeature)
    (hwf : ringedPolygons fs) :
    boundingBoxOf fs = (contributingPoints fs).foldl lngLatExtend none ∧
    (boundingBoxOf fs = none ↔ contributingPoints fs = []) ∧
    (∀ p : ℚ × ℚ, contributingPoints fs = [p] → boundingBoxOf fs = some (p, p)) := by
  have heq : boundingBoxOf fs = (contributingPoints fs).foldl lngLatExtend none :=
    foldl_featureStep_eq fs none
  refine ⟨heq, ?_, ?_⟩
  · rw [heq]
    constructor
    · intro hnone
      rcases hl : contributingPoints fs with _ | ⟨p, t⟩
      · rfl
      · rw [hl] at hnone
        rw [show List.foldl lngLatExtend none (p :: t) =
            List.foldl lngLatExtend (some (p, p)) t from rfl] at hnone
        obtain ⟨q2, hq2⟩ := foldl_lngLatExtend_some t (p, p)
        rw [hq2] at hnone
        exact absurd hnone (by simp)
    · intro hl
      rw [hl]
      rfl
  · intro p hl
    rw [heq, hl]
    rfl

/-- Witness for the amended C2: a single `Polygon` whose outer ring is
the single point `(3, 4)` produces the bounds `((3,4), (3,4))`, i.e.
`min == max`. -/
theorem boundingBoxOf_outer_rings_witness :
    ringedPolygons [{ geometry := .polygon [[(3, 4)]] }] ∧
    contributingPoints [{ geometry := .polygon [[(3, 4)]] }] = [((3 : ℚ), (4 : ℚ))] ∧
    boundingBoxOf [{ geometry := .polygon [[(3, 4)]] }] = some (((3 : ℚ), (4 : ℚ)), ((3 : ℚ), (4 : ℚ))) := by
  have hwf : ringedPolygons [{ geometry := .polygon [[(3, 4)]] }] := by
    intro f hf rings hr
    simp only [List.mem_singleton] at hf
    subst hf
    injection hr with h
    subst h
    simp
  have hl : contributingPoints [{ geometry := .polygon [[(3, 4)]] }] = [((3 : ℚ), (4 : ℚ))] := rfl
  exact ⟨hwf, hl, (boundingBoxOf_outer_rings _ hwf).2.2 _ hl⟩

/-! ## decodeTile: layer selection and GeoJSON conversion
(src/server.js lines 85–97, claims C4 and C10) -/

/-- A GeoJSON feature collection: `{ type: "FeatureCollection",
features: [...] }`. -/
structure FeatureCollection (G : Type) where
  type : String
  features : List G
deriving DecidableEq

/-- One iteration of the `for` loop at src/server.js lines 91–94:
`features.push(buildingsLayer.feature(i).toGeoJSON(...))`.  A layer is its
list of features, `feature(i)` is positional access, and `toGeoJSON`
(an external library call taking the tile address) is an opaque
parameter. -/
def pushStep {F G : Type} (toGeoJSON : F → G) (layer : List F)
    (acc : List G) (i : ℕ) : List G :=
  match layer[i]? with
  | some f => acc ++ [toGeoJSON f]
  | none => acc

/-- The `for (let i = 0; i < buildingsLayer.length; i++)` loop. -/
def loopFeatures {F G : Type} (toGeoJSON : F → G) (layer : List F) : List G :=
  (List.range layer.length).foldl (pushStep toGeoJSON layer) []

/-- The tile-decoding step of `GET /find-buildings` (src/server.js lines
85–97): look the requested category up in `tile.layers`; when absent,
answer the empty FeatureCollection; when present, convert each feature in
index order and wrap the list. -/
def decodeTile {F G : Type} (layers : List (String × List F))
    (category : String) (toGeoJSON : F → G) : FeatureCollection G :=
  match layers.lookup category with
  | none => { type := "FeatureCollection", features := [] }
  | some layer => { type := "FeatureCollection", features := loopFeatures toGeoJSON layer }

/-- **C4.** When the requested category's layer is absent from the tile,
`decodeTile` returns the empty FeatureCollection (`type:
"FeatureCollection"`, empty `features`) — it is a total function, so no
error is raised. -/
theorem decodeTile_absent_layer {F G : Type} (layers : List (String × List F))
    (category : String) (toGeoJSON : F → G)
    (h : layers.lookup category = none) :
    decodeTile layers category toGeoJSON =
      { type := "FeatureCollection", features := [] } := by
  unfold decodeTile
  rw [h]

/-- Witness for C4: a tile whose only layer is `"road"` has no
`"building"` layer, and decoding yields the empty collection. -/
theorem decodeTile_absent_layer_witness :
    ([("road", [0])] : List (String × List ℕ)).lookup "building" = none ∧
    decodeTile ([("road", [0])] : List (String × List ℕ)) "building" (fun n => n) =
      { type := "FeatureCollection", features := [] } := by
  have h : ([("road", [0])] : List (String × List ℕ)).lookup "building" = none := by
    decide
  exact ⟨h, decodeTile_absent_layer _ _ _ h⟩

lemma loopFeatures_take {F G : Type} (toGeoJSON : F → G) (layer : List F) :
    ∀ n, n ≤ layer.length → ∀ acc : List G,
      (List.range n).foldl (pushStep toGeoJSON layer) acc
        = acc ++ (layer.take n).map toGeoJSON := by
  intro n
  induction n with
  | zero => intro _ acc; simp
  | succ k ih =>
    intro hk acc
    have hk' : k < layer.length := by omega
    rw [List.range_succ, List.foldl_append, ih (by omega) acc]
    show pushStep toGeoJSON layer _ k = _
    unfold pushStep
    rw [List.getElem?_eq_getElem hk']
    have htake : layer.take (k + 1) = layer.take k ++ [layer[k]] := by
      rw [List.take_succ, List.getElem?_eq_getElem hk']
      rfl
    rw [htake, List.map_append, ← List.append_assoc]
    rfl

/-- The index loop is exactly `map` over the layer's features. -/
lemma loopFeatures_eq_map {F G : Type} (toGeoJSON : F → G) (layer : List F) :
    loopFeatures toGeoJSON layer = layer.map toGeoJSON := by
  unfold loopFeatures
  rw [loopFeatures_take toGeoJSON layer layer.length le_rfl []]
  simp

/-- **C10.** When the requested layer is present, the returned
FeatureCollection has exactly one feature per layer feature — the
`features` array has the layer's length, and position `i` holds the
conversion of the layer's `i`-th feature — with no filtering, reordering
or deduplication after category selection. -/
theorem decodeTile_one_to_one {F G : Type} (layers : List (String × List F))
    (category : String) (toGeoJSON : F → G) (layer : List F)
    (h : layers.lookup category = some layer) :
    (decodeTile layers category toGeoJSON).features.length = layer.length ∧
    (∀ i : ℕ, (decodeTile layers category toGeoJSON).features[i]? =
      (layer[i]?).map toGeoJSON) ∧
    (decodeTile layers category toGeoJSON).type = "FeatureCollection" := by
  have hfc : decodeTile layers category toGeoJSON =
      { type := "FeatureCollection", features := loopFeatures toGeoJSON layer } := by
    unfold decodeTile
    rw [h]
  rw [hfc, loopFeatures_eq_map]
  refine ⟨by simp, fun i => ?_, rfl⟩
  simp

/-- Witness for C10: a `"building"` layer with two features converts to a
two-feature collection in order. -/
theorem decodeTile_one_to_one_witness :
    ([("building", [10, 20])] : List (String × List ℕ)).lookup "building" = some [10, 20] ∧
    (decodeTile ([("building", [10, 20])] : List (String × List ℕ)) "building"
      (fun n => n + 1)).features.length = ([10, 20] : List ℕ).length ∧
    (decodeTile ([("building", [10, 20])] : List (String × List ℕ)) "building"
      (fun n => n + 1)).features[0]? = (([10, 20] : List ℕ)[0]?).map (fun n => n + 1) := by
  have h : ([("building", [10, 20])] : List (String × List ℕ)).lookup "building"
      = some [10, 20] := by decide
  exact ⟨h, (decodeTile_one_to_one _ _ _ _ h).1, (decodeTile_one_to_one _ _ _ _ h).2.1 0⟩

/-! ## Geometry command decoding (claim C5)

Modelled from the spec: §4.2 describes the decoder as parsing each
feature's "geometry command stream (move-to / line-to / close-path
opcodes with delta-encoded integer coordinates)", failing with a
`DecodeError` on a truncated stream or an unknown opcode, all-or-nothing
per tile.  The binary MVT parsing itself lives in the external
`@mapbox/vector-tile` package, not under `src/`; `src/server.js` only
wraps it in a try/catch whose error path sends no features. -/

/-- Decoder failures: a stream ending in the middle of a command's
parameters, or a command whose opcode is not move-to/line-to/close-path. -/
inductive DecodeError where
  | truncated
  | unknownOpcode (op : ℕ)
deriving DecidableEq

/-- Decoded geometry commands; `moveTo`/`lineTo` carry delta-encoded
coordinates. -/
inductive GeomCmd where
  | moveTo (dx dy : ℤ)
  | lineTo (dx dy : ℤ)
  | closePath
deriving DecidableEq

/-- Zigzag decoding of a delta-encoded integer parameter. -/
def zigzag (n : ℕ) : ℤ :=
  if n % 2 = 0 then (n / 2 : ℤ) else -((n / 2 : ℤ) + 1)

/-- Read `k` coordinate pairs (2·k parameters) from the stream; `none`
when the stream is too short. -/
def readPairs : ℕ → List ℕ → Option (List (ℤ × ℤ) × List ℕ)
  | 0, l => some ([], l)
  | k + 1, a :: b :: t =>
    match readPairs k t with
    | some (ps, rest) => some ((zigzag a, zigzag b) :: ps, rest)
    | none => none
  | _ + 1, [] => none
  | _ + 1, [_] => none

lemma readPairs_rest_length :
    ∀ (k : ℕ) (l : List ℕ) (ps : List (ℤ × ℤ)) (rest : List ℕ),
      readPairs k l = some (ps, rest) → rest.length ≤ l.length := by
  intro k
  induction k with
  | zero =>
    intro l ps rest h
    unfold readPairs at h
    cases h
    exact le_rfl
  | succ j ih =>
    intro l ps rest h
    match l with
    | [] => exact absurd h (by unfold readPairs; simp)
    | [a] => exact absurd h (by unfold readPairs; simp)
    | a :: b :: t =>
      unfold readPairs at h
      rcases hr : readPairs j t with _ | ⟨ps2, rest2⟩
      · rw [hr] at h
        exact absurd h (by simp)
      · rw [hr] at h
        have h1 : rest = rest2 := by
          cases h
          rfl
        have h2 := ih t ps2 rest2 hr
        rw [h1]
        calc rest2.length ≤ t.length := h2
          _ ≤ (a :: b :: t).length := by simp only [List.length_cons]; omega

lemma readPairs_short (k : ℕ) :
    ∀ l : List ℕ, l.length < 2 * k → readPairs k l = none := by
  induction k with
  | zero => intro l h; omega
  | succ j ih =>
    intro l h
    match l with
    | [] => rfl
    | [_] => rfl
    | a :: b :: t =>
      have ht : t.length < 2 * j := by
        simp only [List.length_cons] at h
        omega
      unfold readPairs
      rw [ih t ht]

/-- One feature's command stream, decoded per the spec's description: a
command integer packs opcode `c % 8` and repeat count `c / 8`; opcode 1
(move-to) and 2 (line-to) consume `count` coordinate pairs, opcode 7
(close-path) consumes none; any other opcode is a `DecodeError`, as is a
stream too short for its parameter count. -/
def decodeCommands (l : List ℕ) : Except DecodeError (List GeomCmd) :=
  match l with
  | [] => .ok []
  | c :: rest =>
    if c % 8 = 1 then
      match hrp : readPairs (c / 8) rest with
      | none => .error .truncated
      | some (ps, rest2) =>
        match decodeCommands rest2 with
        | .error e => .error e
        | .ok cs => .ok (ps.map (fun p => GeomCmd.moveTo p.1 p.2) ++ cs)
    else if c % 8 = 2 then
      match hrp : readPairs (c / 8) rest with
      | none => .error .truncated
      | some (ps, rest2) =>
        match decodeCommands rest2 with
        | .error e => .error e
        | .ok cs => .ok (ps.map (fun p => GeomCmd.lineTo p.1 p.2) ++ cs)
    else if c % 8 = 7 then
      match decodeCommands rest with
      | .error e => .error e
      | .ok cs => .ok (List.replicate (c / 8) GeomCmd.closePath ++ cs)
    else .error (.unknownOpcode (c % 8))
termination_by l.length
decreasing_by
  · have := readPairs_rest_length (c / 8) rest ps rest2 hrp
    simp only [List.length_cons]
    omega
  · have := readPairs_rest_length (c / 8) rest ps rest2 hrp
    simp only [List.length_cons]
    omega
  · simp only [List.length_cons]
    omega

/-- Decode every feature of the matched layer, in order, aborting on the
first `DecodeError` — the sequencing performed by the server's `for` loop
inside its try/catch. -/
def decodeLayerGeometries : List (List ℕ) → Except DecodeError (List (List GeomCmd))
  | [] => .ok []
  | p :: ps =>
    match decodeCommands p with
    | .error e => .error e
    | .ok cs =>
      match decodeLayerGeometries ps with
      | .error e => .error e
      | .ok css => .ok (cs :: css)

/-- **C5.** Decoding is all-or-nothing: an unknown opcode fails with
`DecodeError.unknownOpcode` (never silently skipped), a stream too short
for its parameter count fails with `DecodeError.truncated`, a successful
layer decode covers every feature (same length, every stream decoded),
and a failing feature anywhere makes the whole layer decode fail — no
prefix of the features is ever returned. -/
theorem decode_all_or_nothing :
    (∀ c rest, c % 8 ≠ 1 → c % 8 ≠ 2 → c % 8 ≠ 7 →
      decodeCommands (c :: rest) = .error (.unknownOpcode (c % 8))) ∧
    (∀ c rest, (c % 8 = 1 ∨ c % 8 = 2) → rest.length < 2 * (c / 8) →
      decodeCommands (c :: rest) = .error .truncated) ∧
    (∀ ps out, decodeLayerGeometries ps = .ok out →
      out.length = ps.length ∧ ∀ p ∈ ps, ∃ cs, decodeCommands p = .ok cs) ∧
    (∀ ps p e, p ∈ ps → decodeCommands p = .error e →
      ∃ e2, decodeLayerGeometries ps = .error e2) := by
  refine ⟨?_, ?_, ?_, ?_⟩
  · intro c rest h1 h2 h7
    unfold decodeCommands
    rw [if_neg h1, if_neg h2, if_neg h7]
  · intro c rest hop hlen
    have hnone := readPairs_short (c / 8) rest hlen
    unfold decodeCommands
    rcases hop with h | h
    · rw [if_pos h]
      split
      · rfl
      · rename_i ps rest2 heq
        rw [hnone] at heq
        exact absurd heq (by simp)
    · rw [if_neg (by omega), if_pos h]
      split
      · rfl
      · rename_i ps rest2 heq
        rw [hnone] at heq
        exact absurd heq (by simp)
  · intro ps
    induction ps with
    | nil =>
      intro out h
      unfold decodeLayerGeometries at h
      cases h
      exact ⟨rfl, by simp⟩
    | cons p t ih =>
      intro out h
      unfold decodeLayerGeometries at h
      rcases hp : decodeCommands p with e | cs
      · rw [hp] at h
        exact absurd h (by simp)
      · rw [hp] at h
        rcases ht : decodeLayerGeometries t with e | css
        · rw [ht] at h
          exact absurd h (by simp)
        · rw [ht] at h
          have hout : out = cs :: css := by
            cases h
            rfl
          obtain ⟨hlen, hmem⟩ := ih css ht
          subst hout
          refine ⟨by simp [hlen], ?_⟩
          intro q hq
          rcases List.mem_cons.mp hq with hq | hq
          · subst hq
            exact ⟨cs, hp⟩
          · exact hmem q hq
  · intro ps
    induction ps with
    | nil =>
      intro p e hmem
      exact absurd hmem (by simp)
    | cons a t ih =>
      intro p e hmem herr
      unfold decodeLayerGeometries
      rcases ha : decodeCommands a with e2 | cs
      · exact ⟨e2, rfl⟩
      · rcases List.mem_cons.mp hmem with hq | hq
        · subst hq
          rw [ha] at herr
          exact absurd herr (by simp)
        · obtain ⟨e2, he2⟩ := ih p e hq herr
          rw [he2]
          exact ⟨e2, rfl⟩

/-- Witness for C5: command integer `3` has the unknown opcode `3`
(`3 % 8 = 3`), and command integer `9` is a move-to with count `1` whose
two parameters are missing from the empty tail. -/
theorem decode_all_or_nothing_witness :
    ((3 : ℕ) % 8 ≠ 1 ∧ (3 : ℕ) % 8 ≠ 2 ∧ (3 : ℕ) % 8 ≠ 7 ∧
      ((9 : ℕ) % 8 = 1 ∨ (9 : ℕ) % 8 = 2) ∧ ([] : List ℕ).length < 2 * (9 / 8)) ∧
    decodeCommands [3] = .error (.unknownOpcode (3 % 8)) ∧
    decodeCommands [9] = .error .truncated := by
  refine ⟨by decide, ?_, ?_⟩
  · exact decode_all_or_nothing.1 3 [] (by decide) (by decide) (by decide)
  · exact decode_all_or_nothing.2.1 9 [] (Or.inl (by decide)) (by decide)
